import Mathlib

/-!
Verification development for the Prism browser engine (machado2/bowser).

The Rust sources are embedded shallowly:
* `f64` payloads are idealized as exact rationals (`Rat`); none of the
  properties proved here depend on IEEE rounding, only on exact zero tests,
  the `f64::EPSILON` tolerance and order comparisons, which the idealization
  preserves on the inputs exercised.
* `HashMap<String, V>` store fields are embedded as functions
  `String → Option V`; the `HashMap<String, Value>` payload of `Value::Object`
  is embedded as an association list with the map's key-uniqueness and
  order-insensitive equality reflected in `Value.beq`.
* machine-integer casts (`as u32`, `as usize`, `as i64`) are embedded with
  explicit wrapping / saturation where the source relies on them.
-/

/-- Closed dynamic value type of `src/src/ast.rs` (`enum Value`). -/
inductive Value where
  | null
  | bool (b : Bool)
  | int (i : Int)
  | float (f : Rat)
  | str (s : String)
  | list (items : List Value)
  | obj (entries : List (String × Value))
deriving Repr

/-- Machine-epsilon of `f64` (`f64::EPSILON` = 2⁻⁵²), used by the
`PartialEq for Value` float case. -/
def epsF64 : Rat := 1 / 2 ^ 52

mutual

/-- Structural equality of `impl PartialEq for Value` (ast.rs): floats compare
with the `f64::EPSILON` tolerance, objects compare as maps (same size and every
key of the left maps to an equal value on the right), everything else
structurally; distinct variants are never equal. -/
def Value.beq : Value → Value → Bool
  | .null, .null => true
  | .bool a, .bool b => a == b
  | .int a, .int b => a == b
  | .float a, .float b => |a - b| < epsF64
  | .str a, .str b => a == b
  | .list a, .list b => Value.listBeq a b
  | .obj a, .obj b => a.length == b.length && Value.objSub a b
  | _, _ => false

/-- Pointwise equality of two value sequences (the `Vec<Value>` case of
`PartialEq`). -/
def Value.listBeq : List Value → List Value → Bool
  | [], [] => true
  | x :: xs, y :: ys => Value.beq x y && Value.listBeq xs ys
  | _, _ => false

/-- Every entry of the first object occurs (up to `Value.beq`) in the second:
half of `HashMap` equality, the other half being the size check. -/
def Value.objSub : List (String × Value) → List (String × Value) → Bool
  | [], _ => true
  | (k, v) :: rest, b => Value.objLook k v b && Value.objSub rest b

/-- Look up key `k` in an object and compare the stored value with `v`. -/
def Value.objLook : String → Value → List (String × Value) → Bool
  | _, _, [] => false
  | k, v, (k2, v2) :: rest =>
    if k == k2 then Value.beq v v2 else Value.objLook k v rest

end

/-- Variant name, `Value::type_name` (ast.rs). -/
def Value.typeName : Value → String
  | .null => "null"
  | .bool _ => "bool"
  | .int _ => "int"
  | .float _ => "float"
  | .str _ => "string"
  | .list _ => "list"
  | .obj _ => "object"

/-- Truncation of a rational toward zero, the rounding of Rust's
float-to-int `as` casts. -/
def ratTrunc (q : Rat) : Int :=
  if 0 ≤ q then Rat.floor q else Rat.ceil q

/-- Rust `f64 as i64`: truncate toward zero, saturating at the `i64` bounds. -/
def f64AsI64 (q : Rat) : Int :=
  max (-(2 ^ 63)) (min (2 ^ 63 - 1) (ratTrunc q))

/-- Rust `f64 as u32`: truncate toward zero, saturating into `[0, 2³²-1]`. -/
def f64AsU32 (q : Rat) : Nat :=
  min (ratTrunc q).toNat (2 ^ 32 - 1)

/-- Rust `i64 as u32`: wrap modulo 2³². -/
def i64AsU32 (i : Int) : Nat :=
  (i % 2 ^ 32).toNat

/-- Rust `i64 as usize` (64-bit targets): wrap modulo 2⁶⁴. -/
def i64AsUsize (i : Int) : Nat :=
  (i % 2 ^ 64).toNat

/-- Rust `u32 as i32`: wrap into `[-2³¹, 2³¹-1]`. -/
def u32AsI32 (n : Nat) : Int :=
  ((n : Int) + 2 ^ 31) % 2 ^ 32 - 2 ^ 31

/-- Rust `i32` addition (release build): wrap into `[-2³¹, 2³¹-1]`. -/
def addI32 (a b : Int) : Int :=
  (a + b + 2 ^ 31) % 2 ^ 32 - 2 ^ 31

/-- Rendering of a float by `Value::as_string` (ast.rs): integral values print
with no fractional part (`{:.0}`); the shortest-roundtrip `Display` of a
non-integral `f64` is abstracted by the exact `num/den` rendering (no claim
exercises non-integral float formatting). -/
def Value.floatToString (q : Rat) : String :=
  if q.den = 1 then toString q.num else toString q.num ++ "/" ++ toString q.den

/-- Rust `i64` string parse `s.parse::<i64>().unwrap_or(0)`. -/
def parseI64 (s : String) : Int :=
  (s.toInt?).getD 0

/-- Rust `f64` string parse `s.parse::<f64>().unwrap_or(0.0)`, modelled on the
plain decimal fragment `[-]digits[.digits]` (no claim exercises string-to-float
coercion). -/
def parseF64 (s : String) : Rat :=
  let core := fun (t : String) =>
    match t.splitOn "." with
    | [a] => (a.toNat?).map (fun n => (n : Rat))
    | [a, b] =>
      match a.toNat?, b.toNat? with
      | some n, some m => some ((n : Rat) + (m : Rat) / (10 : Rat) ^ b.length)
      | _, _ => none
    | _ => none
  if s.startsWith "-" then
    ((core (s.drop 1)).map Neg.neg).getD 0
  else (core s).getD 0

mutual

/-- Stringification `Value::as_string` (ast.rs). -/
def Value.asString : Value → String
  | .null => ""
  | .bool b => if b then "true" else "false"
  | .int i => toString i
  | .float f => Value.floatToString f
  | .str s => s
  | .list items => "[" ++ String.intercalate ", " (Value.listStrings items) ++ "]"
  | .obj entries =>
    "\x7b" ++ String.intercalate ", " (Value.objStrings entries) ++ "\x7d"

/-- Element strings of a list value, in order. -/
def Value.listStrings : List Value → List String
  | [] => []
  | v :: rest => Value.asString v :: Value.listStrings rest

/-- Entry strings `"k: v"` of an object value, in order. -/
def Value.objStrings : List (String × Value) → List String
  | [] => []
  | (k, v) :: rest => (k ++ ": " ++ Value.asString v) :: Value.objStrings rest

end

/-- Integer coercion `Value::as_int` (ast.rs). -/
def Value.asInt : Value → Int
  | .int i => i
  | .float f => f64AsI64 f
  | .str s => parseI64 s
  | .bool b => if b then 1 else 0
  | .list l => l.length
  | .null => 0
  | .obj _ => 0

/-- Float coercion `Value::as_float` (ast.rs). -/
def Value.asFloat : Value → Rat
  | .int i => (i : Rat)
  | .float f => f
  | .str s => parseF64 s
  | .bool b => if b then 1 else 0
  | .list l => (l.length : Rat)
  | .null => 0
  | .obj _ => 0

/-- Truthiness coercion `Value::as_bool` (ast.rs). -/
def Value.asBool : Value → Bool
  | .bool b => b
  | .int i => i != 0
  | .float f => f != 0
  | .str s => !s.isEmpty
  | .list l => !l.isEmpty
  | .obj o => !o.isEmpty
  | .null => false

/-- List coercion `Value::as_list` (ast.rs): strings explode into
one-character strings, non-lists wrap into a singleton. -/
def Value.asList : Value → List Value
  | .list l => l
  | .str s => s.toList.map (fun c => Value.str (String.mk [c]))
  | v => [v]

/-- Association-list lookup mirroring `HashMap::get` (keys are unique). -/
def objGet (entries : List (String × Value)) (key : String) : Option Value :=
  match entries with
  | [] => none
  | (k, v) :: rest => if k = key then some v else objGet rest key

/-- Association-list insert mirroring `HashMap::insert`: replace the entry for
an existing key, otherwise append. -/
def objInsert (entries : List (String × Value)) (key : String) (v : Value) :
    List (String × Value) :=
  match entries with
  | [] => [(key, v)]
  | (k, w) :: rest =>
    if k = key then (k, v) :: rest else (k, w) :: objInsert rest key v

/-- Indexing `Value::get` (ast.rs): negative list/string indices wrap from the
end (computed with the wrapping `as usize` cast), out-of-range or mismatched
access yields `Null`. -/
def Value.get : Value → Value → Value
  | .list l, .int idx =>
    let i := if idx < 0 then i64AsUsize ((l.length : Int) + idx)
             else i64AsUsize idx
    (l.get? i).getD .null
  | .obj entries, .str key => (objGet entries key).getD .null
  | .str s, .int idx =>
    let i := if idx < 0 then i64AsUsize ((s.utf8ByteSize : Int) + idx)
             else i64AsUsize idx
    ((s.toList.get? i).map (fun c => Value.str (String.mk [c]))).getD .null
  | _, _ => .null

/-- Length `Value::len` (ast.rs); string length is the UTF-8 byte count. -/
def Value.vlen : Value → Nat
  | .list l => l.length
  | .str s => s.utf8ByteSize
  | .obj o => o.length
  | _ => 0

/-- Binary operators of `src/src/ast.rs` (`enum BinaryOp`). -/
inductive BinaryOp where
  | add | sub | mul | div | mod | pow
  | eq | ne | lt | gt | le | ge
  | and | or
  | concat
  | inOp | notInOp
deriving Repr, DecidableEq

/-- Unary operators of `src/src/ast.rs` (`enum UnaryOp`). -/
inductive UnaryOp where
  | not | neg | typeof | len
deriving Repr, DecidableEq

mutual

/-- Expression trees of `src/src/ast.rs` (`enum Expression`). -/
inductive Expression where
  | literal (v : Value)
  | var (name : String)
  | propertyAccess (object : Expression) (property : Expression)
  | indexAccess (object : Expression) (index : Expression)
  | binary (left : Expression) (op : BinaryOp) (right : Expression)
  | unary (op : UnaryOp) (operand : Expression)
  | conditional (condition : Expression) (thenExpr : Expression) (elseExpr : Expression)
  | call (function : String) (args : List Expression)
  | methodCall (object : Expression) (method : String) (args : List Expression)
  | listLiteral (items : List Expression)
  | objectLiteral (pairs : List (String × Expression))
  | interp (parts : List InterpolationPart)
  | lambda (params : List String) (body : Expression)
  | range (start : Expression) (stop : Expression) (inclusive : Bool)
  | spread (e : Expression)
  | pipe (value : Expression) (transform : Expression)
  | nullCoalesce (value : Expression) (default : Expression)

/-- String-interpolation parts of `src/src/ast.rs` (`enum InterpolationPart`). -/
inductive InterpolationPart where
  | lit (s : String)
  | expr (e : Expression)

end

/-- Unary operator semantics, `StateStore::apply_unary_op` (state.rs). -/
def applyUnaryOp (op : UnaryOp) (val : Value) : Value :=
  match op with
  | .not => .bool (!val.asBool)
  | .neg =>
    match val with
    | .int i => .int (-i)
    | .float f => .float (-f)
    | _ => .int (-val.asInt)
  | .typeof => .str val.typeName
  | .len => .int val.vlen

/-- Saturation of an exact integer into the `i64` range (the effect of Rust's
saturating float-to-`i64` casts on an already-integral value). -/
def satI64 (i : Int) : Int :=
  max (-(2 ^ 63)) (min (2 ^ 63 - 1) i)

/-- Rust `f64 %` (truncated remainder, sign of the dividend), exact on `Rat`. -/
def fRem (a b : Rat) : Rat :=
  a - b * (ratTrunc (a / b) : Rat)

/-- Rust `f64::powf` / `powi` idealized on `Rat`: integral exponents are exact
(`zpow`); non-integral exponents (whose `f64` result is irrational) are
abstracted to 0 — no claim exercises `Pow`. -/
def f64Pow (a b : Rat) : Rat :=
  if b.den = 1 then a ^ b.num else 0

/-- Substring containment, Rust `str::contains` with a string needle. -/
def strContains (s sub : String) : Bool :=
  (List.range (s.toList.length + 1)).any
    (fun i => decide (((s.toList.drop i).take sub.toList.length) = sub.toList))

/-- Rust `str::repeat`. -/
def strRepeat (n : Nat) (s : String) : String :=
  String.join (List.replicate n s)

/-- Binary operator semantics, `StateStore::apply_binary_op` (state.rs).
Arithmetic on `i64` is embedded on unbounded `Int` (`Int.tdiv` / `Int.tmod`
match Rust's truncated division); no claim depends on `i64` overflow
wrapping. -/
def applyBinaryOp (left : Value) (op : BinaryOp) (right : Value) : Value :=
  match op with
  | .add =>
    match left, right with
    | .int a, .int b => .int (a + b)
    | .float a, .float b => .float (a + b)
    | .int a, .float b => .float ((a : Rat) + b)
    | .float a, .int b => .float (a + (b : Rat))
    | .str a, .str b => .str (a ++ b)
    | .str a, b => .str (a ++ b.asString)
    | a, .str b => .str (a.asString ++ b)
    | .list a, .list b => .list (a ++ b)
    | a, b => .int (a.asInt + b.asInt)
  | .sub =>
    match left, right with
    | .int a, .int b => .int (a - b)
    | .float a, .float b => .float (a - b)
    | .int a, .float b => .float ((a : Rat) - b)
    | .float a, .int b => .float (a - (b : Rat))
    | a, b => .int (a.asInt - b.asInt)
  | .mul =>
    match left, right with
    | .int a, .int b => .int (a * b)
    | .float a, .float b => .float (a * b)
    | .int a, .float b => .float ((a : Rat) * b)
    | .float a, .int b => .float (a * (b : Rat))
    | .str s, .int n => .str (strRepeat (i64AsUsize n) s)
    | .int n, .str s => .str (strRepeat (i64AsUsize n) s)
    | a, b => .int (a.asInt * b.asInt)
  | .div =>
    match left, right with
    | .int a, .int b => if b ≠ 0 then .int (Int.tdiv a b) else .int 0
    | .float a, .float b => if b ≠ 0 then .float (a / b) else .int 0
    | .int a, .float b => if b ≠ 0 then .float ((a : Rat) / b) else .int 0
    | .float a, .int b => if b ≠ 0 then .float (a / (b : Rat)) else .int 0
    | _, _ => .int 0
  | .mod =>
    match left, right with
    | .int a, .int b => if b ≠ 0 then .int (Int.tmod a b) else .int 0
    | .float a, .float b => if b ≠ 0 then .float (fRem a b) else .int 0
    | _, _ => .int 0
  | .pow =>
    match left, right with
    | .int a, .int b => .int (a ^ i64AsU32 b)
    | .float a, .float b => .float (f64Pow a b)
    | .int a, .float b => .float (f64Pow (a : Rat) b)
    | .float a, .int b => .float (a ^ (((b + 2 ^ 31) % 2 ^ 32) - 2 ^ 31))
    | _, _ => .int 0
  | .eq => .bool (Value.beq left right)
  | .ne => .bool (!Value.beq left right)
  | .lt => .bool (left.asFloat < right.asFloat)
  | .gt => .bool (left.asFloat > right.asFloat)
  | .le => .bool (left.asFloat ≤ right.asFloat)
  | .ge => .bool (left.asFloat ≥ right.asFloat)
  | .and => .bool (left.asBool && right.asBool)
  | .or => .bool (left.asBool || right.asBool)
  | .concat => .str (left.asString ++ right.asString)
  | .inOp =>
    match right with
    | .list l => .bool (l.any (fun e => Value.beq e left))
    | .str s => .bool (strContains s left.asString)
    | .obj o => .bool (objGet o left.asString).isSome
    | _ => .bool false
  | .notInOp =>
    match right with
    | .list l => .bool (!l.any (fun e => Value.beq e left))
    | .str s => .bool (!strContains s left.asString)
    | .obj o => .bool (!(objGet o left.asString).isSome)
    | _ => .bool true

mutual

/-- JSON encoding `StateStore::to_json` (state.rs); float `Display` shares the
`Value.floatToString` abstraction. -/
def Value.toJson : Value → String
  | .null => "null"
  | .bool b => if b then "true" else "false"
  | .int i => toString i
  | .float f => Value.floatToString f
  | .str s =>
    "\"" ++ ((s.replace "\\" "\\\\").replace "\"" "\\\"") ++ "\""
  | .list items => "[" ++ String.intercalate "," (Value.listJsons items) ++ "]"
  | .obj entries =>
    "\x7b" ++ String.intercalate "," (Value.objJsons entries) ++ "\x7d"

/-- JSON strings of a list's elements, in order. -/
def Value.listJsons : List Value → List String
  | [] => []
  | v :: rest => Value.toJson v :: Value.listJsons rest

/-- JSON strings `"k":v` of an object's entries, in order. -/
def Value.objJsons : List (String × Value) → List String
  | [] => []
  | (k, v) :: rest => ("\"" ++ k ++ "\":" ++ Value.toJson v) :: Value.objJsons rest

end

/-- Rust `(start..end).step_by(step)` on `i64` for a positive `step`. -/
def rangeStep (start stop step : Int) : List Int :=
  if start ≥ stop then []
  else (List.range (((stop - start + step - 1) / step).toNat)).map
    (fun k => start + step * (k : Int))

/-- Half-away-from-zero rounding of Rust `f64::round`. -/
def f64Round (q : Rat) : Int :=
  if 0 ≤ q then Rat.floor (q + 1 / 2) else Rat.ceil (q - 1 / 2)

/-- Idealization of `f64::sqrt` by the rational square-root approximation
`Rat.sqrt` (the irrational `f64` result is not representable; no claim
exercises `sqrt`). -/
def f64Sqrt (q : Rat) : Rat := Rat.sqrt q

/-- Built-in free functions, `StateStore::call_builtin` (state.rs); an unknown
name yields `Null`. The receiver (`&self`) is unused by the source except for
`to_json`, which is itself pure, so the embedding is a pure function. -/
def callBuiltin (name : String) (args : List Value) : Value :=
  match name with
  | "abs" =>
    ((args.head?).map (fun v =>
      match v with
      | .int i => Value.int i.natAbs
      | .float f => .float |f|
      | _ => .int v.asInt.natAbs)).getD .null
  | "min" =>
    if args.length < 2 then .null
    else .float (min ((args.getD 0 .null).asFloat) ((args.getD 1 .null).asFloat))
  | "max" =>
    if args.length < 2 then .null
    else .float (max ((args.getD 0 .null).asFloat) ((args.getD 1 .null).asFloat))
  | "floor" => ((args.head?).map (fun v => Value.int (satI64 (Rat.floor v.asFloat)))).getD .null
  | "ceil" => ((args.head?).map (fun v => Value.int (satI64 (Rat.ceil v.asFloat)))).getD .null
  | "round" => ((args.head?).map (fun v => Value.int (satI64 (f64Round v.asFloat)))).getD .null
  | "sqrt" => ((args.head?).map (fun v => Value.float (f64Sqrt v.asFloat))).getD .null
  | "len" => ((args.head?).map (fun v => Value.int v.vlen)).getD .null
  | "str" => ((args.head?).map (fun v => Value.str v.asString)).getD .null
  | "int" => ((args.head?).map (fun v => Value.int v.asInt)).getD .null
  | "float" => ((args.head?).map (fun v => Value.float v.asFloat)).getD .null
  | "bool" => ((args.head?).map (fun v => Value.bool v.asBool)).getD .null
  | "type" => ((args.head?).map (fun v => Value.str v.typeName)).getD .null
  | "is_null" =>
    ((args.head?).map (fun v =>
      Value.bool (match v with | .null => true | _ => false))).getD (.bool true)
  | "is_list" =>
    ((args.head?).map (fun v =>
      Value.bool (match v with | .list _ => true | _ => false))).getD (.bool false)
  | "is_object" =>
    ((args.head?).map (fun v =>
      Value.bool (match v with | .obj _ => true | _ => false))).getD (.bool false)
  | "list" => .list args
  | "range" =>
    let start := ((args.head?).map Value.asInt).getD 0
    let stop := ((args.get? 1).map Value.asInt).getD start
    let step := ((args.get? 2).map Value.asInt).getD 1
    let p := if args.length = 1 then ((0 : Int), start) else (start, stop)
    if step ≤ 0 then .list []
    else .list ((rangeStep p.1 p.2 step).map Value.int)
  | "keys" =>
    ((args.head?).map (fun v =>
      match v with
      | .obj o => Value.list (o.map (fun e => Value.str e.1))
      | _ => Value.list [])).getD (.list [])
  | "values" =>
    ((args.head?).map (fun v =>
      match v with
      | .obj o => Value.list (o.map (fun e => e.2))
      | _ => Value.list [])).getD (.list [])
  | "json_encode" => ((args.head?).map (fun v => Value.str v.toJson)).getD .null
  | _ => .null

/-- Rust `str::slice`-style char-range extraction used by the `slice`
methods. -/
def charSlice (cs : List Char) (start stop : Nat) : List Char :=
  if start ≤ stop ∧ stop ≤ cs.length then (cs.drop start).take (stop - start)
  else []

/-- Accumulator for the `unique` list method: keep elements not yet seen
(`Vec::contains`, i.e. `Value.beq`). -/
def uniqueAux (seen : List Value) : List Value → List Value
  | [] => []
  | x :: rest =>
    if seen.any (fun e => Value.beq e x) then uniqueAux seen rest
    else x :: uniqueAux (seen ++ [x]) rest

/-- Rust `Iterator::min_by` on `as_float` (first minimal element wins). -/
def listMinBy (l : List Value) : Option Value :=
  match l with
  | [] => none
  | x :: rest => some (rest.foldl (fun acc y => if y.asFloat < acc.asFloat then y else acc) x)

/-- Rust `Iterator::max_by` on `as_float` (last maximal element wins). -/
def listMaxBy (l : List Value) : Option Value :=
  match l with
  | [] => none
  | x :: rest => some (rest.foldl (fun acc y => if acc.asFloat ≤ y.asFloat then y else acc) x)

/-- Built-in methods, `StateStore::call_method` (state.rs), dispatching on the
(receiver-variant, name) pair; unmatched pairs yield `Null`. Unicode case
mapping and empty-separator splitting of the Rust string library are
idealized by Lean's string primitives (no claim exercises them). -/
def callMethod (obj : Value) (method : String) (args : List Value) : Value :=
  match obj, method with
  | .str s, "upper" => .str s.toUpper
  | .str s, "lower" => .str s.toLower
  | .str s, "trim" => .str s.trim
  | .str s, "trim_start" => .str s.trimLeft
  | .str s, "trim_end" => .str s.trimRight
  | .str s, "len" => .int s.utf8ByteSize
  | .str s, "chars" => .int s.toList.length
  | .str s, "split" =>
    let sep := ((args.head?).map Value.asString).getD " "
    .list ((s.splitOn sep).map Value.str)
  | .str s, "join" =>
    match args.head? with
    | some (.list items) => .str (String.intercalate s (items.map Value.asString))
    | _ => .str s
  | .str s, "replace" =>
    if args.length < 2 then .str s
    else .str (s.replace ((args.getD 0 .null).asString) ((args.getD 1 .null).asString))
  | .str s, "starts_with" => .bool (s.startsWith (((args.head?).map Value.asString).getD ""))
  | .str s, "ends_with" => .bool (s.endsWith (((args.head?).map Value.asString).getD ""))
  | .str s, "contains" => .bool (strContains s (((args.head?).map Value.asString).getD ""))
  | .str s, "slice" =>
    let start := i64AsUsize (((args.head?).map Value.asInt).getD 0)
    let stop := ((args.get? 1).map (fun v => i64AsUsize v.asInt)).getD s.utf8ByteSize
    .str (String.mk (charSlice s.toList start (min stop s.toList.length)))
  | .str s, "repeat" => .str (strRepeat (i64AsUsize (((args.head?).map Value.asInt).getD 1)) s)
  | .str s, "pad_start" =>
    let len := i64AsUsize (((args.head?).map Value.asInt).getD 0)
    let pad := ((args.get? 1).map Value.asString).getD " "
    let padChar := (pad.toList.head?).getD ' '
    if s.toList.length ≥ len then .str s
    else .str (String.mk (List.replicate (len - s.toList.length) padChar) ++ s)
  | .str s, "pad_end" =>
    let len := i64AsUsize (((args.head?).map Value.asInt).getD 0)
    let pad := ((args.get? 1).map Value.asString).getD " "
    let padChar := (pad.toList.head?).getD ' '
    if s.toList.length ≥ len then .str s
    else .str (s ++ String.mk (List.replicate (len - s.toList.length) padChar))
  | .list l, "len" => .int l.length
  | .list l, "first" => (l.head?).getD .null
  | .list l, "last" => (l.getLast?).getD .null
  | .list l, "get" =>
    let idx := ((args.head?).map Value.asInt).getD 0
    let i := if idx < 0 then i64AsUsize ((l.length : Int) + idx) else i64AsUsize idx
    (l.get? i).getD .null
  | .list l, "slice" =>
    let start := i64AsUsize (((args.head?).map Value.asInt).getD 0)
    let stop := ((args.get? 1).map (fun v => i64AsUsize v.asInt)).getD l.length
    .list ((fun cs => if start ≤ min stop l.length then
      (List.drop start cs).take (min stop l.length - start) else []) l)
  | .list l, "contains" =>
    let item := ((args.head?).getD .null)
    .bool (l.any (fun e => Value.beq e item))
  | .list l, "index_of" =>
    let item := ((args.head?).getD .null)
    .int (((l.findIdx? (fun e => Value.beq e item)).map (fun i => (i : Int))).getD (-1))
  | .list l, "join" =>
    let sep := ((args.head?).map Value.asString).getD ","
    .str (String.intercalate sep (l.map Value.asString))
  | .list l, "reverse" => .list l.reverse
  | .list l, "sort" => .list (l.mergeSort (fun a b => decide (a.asFloat ≤ b.asFloat)))
  | .list l, "unique" => .list (uniqueAux [] l)
  | .list l, "flatten" =>
    .list (l.foldl (fun acc item =>
      match item with
      | Value.list inner => acc ++ inner
      | _ => acc ++ [item]) [])
  | .list l, "sum" =>
    let s := (l.map Value.asFloat).sum
    if s.den = 1 then .int (f64AsI64 s) else .float s
  | .list l, "min" => (listMinBy l).getD .null
  | .list l, "max" => (listMaxBy l).getD .null
  | .list l, "avg" =>
    if l.isEmpty then .null
    else .float ((l.map Value.asFloat).sum / (l.length : Rat))
  | .obj o, "keys" => .list (o.map (fun e => Value.str e.1))
  | .obj o, "values" => .list (o.map (fun e => e.2))
  | .obj o, "entries" => .list (o.map (fun e => Value.list [Value.str e.1, e.2]))
  | .obj o, "has" => .bool (objGet o (((args.head?).map Value.asString).getD "")).isSome
  | .obj o, "get" =>
    let key := ((args.head?).map Value.asString).getD ""
    let dflt := (args.get? 1).getD .null
    (objGet o key).getD dflt
  | .int n, "abs" => .int n.natAbs
  | .float n, "abs" => .float |n|
  | v, "to_string" => .str v.asString
  | _, _ => .null

/-- Reactive state store of `src/src/state.rs` (`struct StateStore`): the
`HashMap` fields are embedded as functions from keys to optional entries. -/
structure StateStore where
  values : String → Option Value
  computed : String → Option Expression
  locals : String → Option Value
  dirty : Bool

/-- Update one key of an embedded `HashMap` (`HashMap::insert`). -/
def mapInsert {β : Type} (m : String → Option β) (key : String) (v : β) :
    String → Option β :=
  fun k => if k = key then some v else m k

/-- Fresh store, `StateStore::new` (state.rs): empty maps, dirty. -/
def StateStore.new : StateStore :=
  { values := fun _ => none
    computed := fun _ => none
    locals := fun _ => none
    dirty := true }

/-- Value update `StateStore::set` (state.rs): always inserts; raises the
dirty flag exactly when the new value differs (under `PartialEq`, i.e.
`Value.beq`) from the current entry — a missing entry always counts as
changed. -/
def StateStore.set (s : StateStore) (key : String) (v : Value) : StateStore :=
  let changed :=
    match s.values key with
    | some old => !Value.beq old v
    | none => true
  { s with values := mapInsert s.values key v, dirty := s.dirty || changed }

/-- Local binding `StateStore::set_local` (state.rs). -/
def StateStore.setLocal (s : StateStore) (key : String) (v : Value) : StateStore :=
  { s with locals := mapInsert s.locals key v }

/-- Local reset `StateStore::clear_locals` (state.rs). -/
def StateStore.clearLocals (s : StateStore) : StateStore :=
  { s with locals := fun _ => none }

/-- Render acknowledgement `StateStore::mark_clean` (state.rs). -/
def StateStore.markClean (s : StateStore) : StateStore :=
  { s with dirty := false }

/-- Forced re-render `StateStore::invalidate` (state.rs). -/
def StateStore.invalidate (s : StateStore) : StateStore :=
  { s with dirty := true }

mutual

/-- Variable read `StateStore::get` (state.rs): locals first, then persistent
values, then computed expressions (re-evaluated on every read). A
self-referential computed expression recurses unboundedly in the source; the
embedding spends one unit of fuel per computed-expression hop and answers
`none` when the fuel runs out. -/
def StateStore.get (fuel : Nat) (s : StateStore) (key : String) : Option Value :=
  match s.locals key with
  | some v => some v
  | none =>
    match s.values key with
    | some v => some v
    | none =>
      match s.computed key with
      | some expr =>
        match fuel with
        | 0 => none
        | f + 1 => some (StateStore.evalS f s expr).1
      | none => none
termination_by (fuel, 0)

/-- Expression evaluation `StateStore::evaluate` (state.rs), embedded in
store-threading style: every sub-evaluation receives the store produced by the
previous one, so that the read-only nature of evaluation (`&self` in the
source) is a provable property of the embedding rather than an assumption. -/
def StateStore.evalS (fuel : Nat) (s : StateStore) (e : Expression) :
    Value × StateStore :=
  match e with
  | .literal v => (v, s)
  | .var name => ((StateStore.get fuel s name).getD .null, s)
  | .binary l op r =>
    let p1 := StateStore.evalS fuel s l
    let p2 := StateStore.evalS fuel p1.2 r
    (applyBinaryOp p1.1 op p2.1, p2.2)
  | .unary op operand =>
    let p := StateStore.evalS fuel s operand
    (applyUnaryOp op p.1, p.2)
  | .interp parts =>
    let p := StateStore.evalPartsS fuel s parts
    (.str p.1, p.2)
  | .propertyAccess object property =>
    let p1 := StateStore.evalS fuel s object
    let p2 := StateStore.evalS fuel p1.2 property
    (Value.get p1.1 p2.1, p2.2)
  | .indexAccess object index =>
    let p1 := StateStore.evalS fuel s object
    let p2 := StateStore.evalS fuel p1.2 index
    (Value.get p1.1 p2.1, p2.2)
  | .conditional c t f =>
    let pc := StateStore.evalS fuel s c
    if pc.1.asBool then StateStore.evalS fuel pc.2 t
    else StateStore.evalS fuel pc.2 f
  | .call fn args =>
    let p := StateStore.evalListS fuel s args
    (callBuiltin fn p.1, p.2)
  | .methodCall object m args =>
    let po := StateStore.evalS fuel s object
    let pa := StateStore.evalListS fuel po.2 args
    (callMethod po.1 m pa.1, pa.2)
  | .listLiteral items =>
    let p := StateStore.evalListS fuel s items
    (.list p.1, p.2)
  | .objectLiteral pairs =>
    let p := StateStore.evalPairsS fuel s pairs
    (.obj (p.1.foldl (fun m kv => objInsert m kv.1 kv.2) []), p.2)
  | .lambda _ _ => (.null, s)
  | .range start stop inclusive =>
    let p1 := StateStore.evalS fuel s start
    let p2 := StateStore.evalS fuel p1.2 stop
    let a := p1.1.asInt
    let b := p2.1.asInt
    let n := if inclusive then (b - a + 1).toNat else (b - a).toNat
    (.list ((List.range n).map (fun k => Value.int (a + k))), p2.2)
  | .nullCoalesce v d =>
    let pv := StateStore.evalS fuel s v
    match pv.1 with
    | .null => StateStore.evalS fuel pv.2 d
    | w => (w, pv.2)
  | .spread inner => StateStore.evalS fuel s inner
  | .pipe v _ => StateStore.evalS fuel s v
termination_by (fuel, sizeOf e)

/-- Left-to-right evaluation of an argument list, threading the store. -/
def StateStore.evalListS (fuel : Nat) (s : StateStore) (es : List Expression) :
    List Value × StateStore :=
  match es with
  | [] => ([], s)
  | e :: rest =>
    let p := StateStore.evalS fuel s e
    let pr := StateStore.evalListS fuel p.2 rest
    (p.1 :: pr.1, pr.2)
termination_by (fuel, sizeOf es)

/-- Concatenation of interpolation parts (`Expression::Interpolation`),
threading the store. -/
def StateStore.evalPartsS (fuel : Nat) (s : StateStore)
    (parts : List InterpolationPart) : String × StateStore :=
  match parts with
  | [] => ("", s)
  | .lit t :: rest =>
    let pr := StateStore.evalPartsS fuel s rest
    (t ++ pr.1, pr.2)
  | .expr e :: rest =>
    let p := StateStore.evalS fuel s e
    let pr := StateStore.evalPartsS fuel p.2 rest
    (p.1.asString ++ pr.1, pr.2)
termination_by (fuel, sizeOf parts)

/-- Left-to-right evaluation of object-literal entries, threading the store. -/
def StateStore.evalPairsS (fuel : Nat) (s : StateStore)
    (pairs : List (String × Expression)) : List (String × Value) × StateStore :=
  match pairs with
  | [] => ([], s)
  | (k, e) :: rest =>
    let p := StateStore.evalS fuel s e
    let pr := StateStore.evalPairsS fuel p.2 rest
    ((k, p.1) :: pr.1, pr.2)
termination_by (fuel, sizeOf pairs)

end

/-- Value of an expression in a store, the result component of
`StateStore::evaluate`. -/
def StateStore.evaluate (fuel : Nat) (s : StateStore) (e : Expression) : Value :=
  (StateStore.evalS fuel s e).1

/-- Assignment targets of `src/src/ast.rs` (`enum AssignTarget`). -/
inductive AssignTarget where
  | var (name : String)
  | index (object : String) (idx : Expression)
  | prop (object : String) (property : String)

/-- HTTP methods of `src/src/ast.rs` (`enum HttpMethod`). -/
inductive HttpMethod where
  | get | post | put | patch | delete

/-- Statements of `src/src/ast.rs` (`enum Statement`). -/
inductive Statement where
  | assign (target : AssignTarget) (value : Expression)
  | ifStmt (condition : Expression) (thenBlock : List Statement) (elseBlock : List Statement)
  | forEach (item : String) (index : Option String) (collection : Expression) (body : List Statement)
  | whileStmt (condition : Expression) (body : List Statement)
  | ret (e : Option Expression)
  | brk
  | contStmt
  | call (action : String) (args : List Expression)
  | log (e : Expression)
  | emit (event : String) (data : Option Expression)
  | navigate (e : Expression)
  | fetch (url : Expression) (method : HttpMethod) (body : Option Expression)
      (headers : List (String × Expression)) (onSuccess : String) (onError : String)
  | delay (ms : Expression) (thenBlock : List Statement)
  | listPush (target : String) (value : Expression)
  | listPop (target : String)
  | listInsert (target : String) (index : Expression) (value : Expression)
  | listRemove (target : String) (index : Expression)
  | listClear (target : String)

/-- Action blocks of `src/src/ast.rs` (`struct ActionBlock`). -/
structure ActionBlock where
  params : List String
  statements : List Statement

/-- Control-flow signals of `src/prism/src/runtime.rs` (`enum ControlFlow`). -/
inductive CFlow where
  | cont
  | brk
  | ret (v : Option Value)

/-- Mutable part of `src/prism/src/runtime.rs` (`struct Runtime`): the state
store plus input focus and current route. The application's action table is
read-only and passed separately. -/
structure Runtime where
  state : StateStore
  focusedInput : Option String
  currentRoute : String

/-- Fusion of `StateStore::get_list_mut` with the in-place mutation applied to
the borrowed list: when `key` holds a top-level `List`, the mutation `f` is
applied and the dirty flag is raised (the source raises it as soon as the
mutable borrow is handed out, even if the mutation does nothing); otherwise
the store is untouched. -/
def StateStore.listMutate (s : StateStore) (key : String)
    (f : List Value → List Value) : StateStore :=
  match s.values key with
  | some (.list l) =>
    { s with values := mapInsert s.values key (.list (f l)), dirty := true }
  | _ => s

/-- Fusion of `StateStore::get_object_mut` with the applied mutation,
analogous to `StateStore.listMutate`. -/
def StateStore.objMutate (s : StateStore) (key : String)
    (f : List (String × Value) → List (String × Value)) : StateStore :=
  match s.values key with
  | some (.obj o) =>
    { s with values := mapInsert s.values key (.obj (f o)), dirty := true }
  | _ => s

/-- Positional parameter binding of `Runtime::execute_action` (runtime.rs):
`params[i]` is bound as a local to `args[i]`, defaulting to `Null` when the
argument is missing; `i` is the enumeration index. -/
def bindLoop (st : StateStore) (params : List String) (args : List Value)
    (i : Nat) : StateStore :=
  match params with
  | [] => st
  | p :: rest => bindLoop (st.setLocal p (args.getD i .null)) rest args (i + 1)

mutual

/-- Action invocation `Runtime::execute_action` (runtime.rs): bind parameters
positionally into the (single, shared) locals map, run the body, then clear
all locals. Fuel bounds the recursion depth of the source's unbounded
action-call/loop recursion; exhausted fuel acts as a no-op. -/
def execAction (fuel : Nat) (acts : String → Option ActionBlock) (rt : Runtime)
    (a : ActionBlock) (args : List Value) : Runtime :=
  match fuel with
  | 0 => rt
  | f + 1 =>
    let st1 := bindLoop rt.state a.params args 0
    let r := execStmts f acts { rt with state := st1 } a.statements
    { r.2 with state := r.2.state.clearLocals }
termination_by fuel

/-- Statement-sequence execution `Runtime::execute_statements` (runtime.rs):
run statements in order, short-circuiting on the first non-`Continue`
signal. -/
def execStmts (fuel : Nat) (acts : String → Option ActionBlock) (rt : Runtime)
    (stmts : List Statement) : CFlow × Runtime :=
  match fuel with
  | 0 => (.cont, rt)
  | f + 1 =>
    match stmts with
    | [] => (.cont, rt)
    | st :: rest =>
      match execStmt f acts rt st with
      | (.cont, rt2) => execStmts f acts rt2 rest
      | other => other
termination_by fuel

/-- Single-statement execution `Runtime::execute_statement` (runtime.rs). -/
def execStmt (fuel : Nat) (acts : String → Option ActionBlock) (rt : Runtime)
    (stmt : Statement) : CFlow × Runtime :=
  match fuel with
  | 0 => (.cont, rt)
  | f + 1 =>
    match stmt with
    | .assign target value =>
      let ev := rt.state.evaluate f value
      match target with
      | .var name => (.cont, { rt with state := rt.state.set name ev })
      | .index object index =>
        let idx := rt.state.evaluate f index
        (.cont, { rt with state := rt.state.listMutate object (fun l =>
          let i := i64AsUsize idx.asInt
          if i < l.length then l.set i ev else l) })
      | .prop object property =>
        (.cont, { rt with state := rt.state.objMutate object (fun o =>
          objInsert o property ev) })
    | .ifStmt condition thenBlock elseBlock =>
      let c := rt.state.evaluate f condition
      if c.asBool then execStmts f acts rt thenBlock
      else execStmts f acts rt elseBlock
    | .forEach item index collection body =>
      let vals := (rt.state.evaluate f collection).asList
      execForEach f acts rt item index vals 0 body
    | .whileStmt condition body => execWhile f acts rt condition body
    | .ret e => (.ret (e.map (rt.state.evaluate f)), rt)
    | .brk => (.brk, rt)
    | .contStmt => (.cont, rt)
    | .call action args =>
      let argv := args.map (rt.state.evaluate f)
      match acts action with
      | some ab => (.cont, execAction f acts rt ab argv)
      | none => (.cont, rt)
    | .log e =>
      let _ := rt.state.evaluate f e
      (.cont, rt)
    | .emit _ data =>
      let _ := data.map (rt.state.evaluate f)
      (.cont, rt)
    | .navigate e =>
      (.cont, { rt with currentRoute := (rt.state.evaluate f e).asString,
                        state := rt.state.invalidate })
    | .fetch url _ body _ _ _ =>
      let _ := rt.state.evaluate f url
      let _ := body.map (rt.state.evaluate f)
      (.cont, rt)
    | .delay ms thenBlock =>
      let _ := rt.state.evaluate f ms
      execStmts f acts rt thenBlock
    | .listPush target value =>
      let v := rt.state.evaluate f value
      (.cont, { rt with state := rt.state.listMutate target (fun l => l ++ [v]) })
    | .listPop target =>
      (.cont, { rt with state := rt.state.listMutate target (fun l => l.dropLast) })
    | .listInsert target index value =>
      let idx := i64AsUsize (rt.state.evaluate f index).asInt
      let v := rt.state.evaluate f value
      (.cont, { rt with state := rt.state.listMutate target (fun l =>
        if idx ≤ l.length then l.take idx ++ v :: l.drop idx else l) })
    | .listRemove target index =>
      let idx := i64AsUsize (rt.state.evaluate f index).asInt
      (.cont, { rt with state := rt.state.listMutate target (fun l =>
        if idx < l.length then l.take idx ++ l.drop (idx + 1) else l) })
    | .listClear target =>
      (.cont, { rt with state := rt.state.listMutate target (fun _ => []) })
termination_by fuel

/-- Loop body of the `Statement::ForEach` arm: bind the item (and optional
enumeration index) as locals per iteration; `Break` exits the loop yielding
`Continue`, `Return` propagates. -/
def execForEach (fuel : Nat) (acts : String → Option ActionBlock) (rt : Runtime)
    (item : String) (idxName : Option String) (vals : List Value) (i : Nat)
    (body : List Statement) : CFlow × Runtime :=
  match fuel with
  | 0 => (.cont, rt)
  | f + 1 =>
    match vals with
    | [] => (.cont, rt)
    | v :: rest =>
      let st1 := rt.state.setLocal item v
      let st2 := match idxName with
        | some n => st1.setLocal n (.int i)
        | none => st1
      match execStmts f acts { rt with state := st2 } body with
      | (.brk, rt2) => (.cont, rt2)
      | (.ret rv, rt2) => (.ret rv, rt2)
      | (.cont, rt2) => execForEach f acts rt2 item idxName rest (i + 1) body
termination_by fuel

/-- Loop of the `Statement::While` arm: re-evaluate the condition before each
iteration; `Break` exits yielding `Continue`, `Return` propagates. -/
def execWhile (fuel : Nat) (acts : String → Option ActionBlock) (rt : Runtime)
    (condition : Expression) (body : List Statement) : CFlow × Runtime :=
  match fuel with
  | 0 => (.cont, rt)
  | f + 1 =>
    let c := rt.state.evaluate f condition
    if !c.asBool then (.cont, rt)
    else
      match execStmts f acts rt body with
      | (.brk, rt2) => (.cont, rt2)
      | (.ret rv, rt2) => (.ret rv, rt2)
      | (.cont, rt2) => execWhile f acts rt2 condition body
termination_by fuel

end

/-- RGBA color of `src/src/ast.rs` (`struct Color`). -/
structure Color where
  r : Nat
  g : Nat
  b : Nat
  a : Nat

/-- Node kinds of `src/src/ast.rs` (`enum NodeKind`). -/
inductive NodeKind where
  | column | row | stack | grid | scroll | center
  | box | spacer | divider
  | text | link | markdown
  | button | input | textArea | checkbox | radio | select | slider | toggle
  | image | icon | video | audio
  | table | listNode | card | badge | progress | avatar
  | modal | toast | tooltip | popover
  | eachNode | ifNode | showNode | switchNode | slot
  | component (name : String)

mutual

/-- View-tree nodes of `src/src/ast.rs` (`struct ViewNode`); the property
`HashMap` is embedded as a function from names to optional values. -/
inductive ViewNode where
  | mk (kind : NodeKind) (props : String → Option PropValue) (children : List ViewNode)

/-- Property values of `src/src/ast.rs` (`enum PropValue`). -/
inductive PropValue where
  | static (v : Value)
  | expression (e : Expression)
  | color (c : Color)
  | handler (name : String)
  | eventHandler (action : String) (args : List Expression)

end

/-- Node kind accessor. -/
def ViewNode.kind : ViewNode → NodeKind
  | .mk k _ _ => k

/-- Node property accessor. -/
def ViewNode.props : ViewNode → (String → Option PropValue)
  | .mk _ p _ => p

/-- Node children accessor. -/
def ViewNode.children : ViewNode → List ViewNode
  | .mk _ _ c => c

/-- Integer property resolution `Renderer::get_int_prop` (renderer.rs):
static int, static float (truncated), dynamic expression coerced with
`as_int`, or the default. -/
def getIntProp (fuel : Nat) (st : StateStore) (node : ViewNode) (name : String)
    (dflt : Int) : Int :=
  match node.props name with
  | some (.static (.int i)) => i
  | some (.static (.float f)) => f64AsI64 f
  | some (.expression e) => (st.evaluate fuel e).asInt
  | _ => dflt

/-- String property resolution `Renderer::get_string_prop` (renderer.rs). -/
def getStringProp (fuel : Nat) (st : StateStore) (node : ViewNode) (name : String)
    (dflt : String) : String :=
  match node.props name with
  | some (.static (.str s)) => s
  | some (.expression e) => (st.evaluate fuel e).asString
  | _ => dflt

/-- Visibility resolution `Renderer::is_visible` (renderer.rs): the `visible`
property as expression or static bool, defaulting to visible. -/
def isVisible (fuel : Nat) (st : StateStore) (node : ViewNode) : Bool :=
  match node.props "visible" with
  | some (.expression e) => (st.evaluate fuel e).asBool
  | some (.static (.bool b)) => b
  | _ => true

/-- Rust `u32::saturating_add`. -/
def satAddU32 (a b : Nat) : Nat :=
  min (a + b) (2 ^ 32 - 1)

/-- Approximate text measurement `Renderer::text_width` (renderer.rs):
byte count times the per-character average `size * 0.55` (exact on `Rat`),
cast to `u32`, plus 4. -/
def textWidth (content : String) (size : Rat) : Nat :=
  satAddU32 (f64AsU32 ((content.utf8ByteSize : Rat) * (size * (11 / 20)))) 4

/-- Greedy word-wrap `Renderer::wrap_text` (renderer.rs): add a word to the
current line if `current + space + word` still fits, else start a new line. -/
def wrapText (content : String) (size : Rat) (widthLimit : Nat) : List String :=
  if content = "" ∨ widthLimit = 0 then []
  else
    let words := (content.split (fun c => c.isWhitespace)).filter (fun w => !(w == ""))
    let spaceW := textWidth " " size
    let r := words.foldl (fun (acc : List String × String × Nat) word =>
      let ww := textWidth word size
      if acc.2.1 == "" then (acc.1, word, ww)
      else if acc.2.2 + spaceW + ww ≤ widthLimit then
        (acc.1, acc.2.1 ++ " " ++ word, acc.2.2 + spaceW + ww)
      else (acc.1 ++ [acc.2.1], word, ww)) ([], "", 0)
    if r.2.1 == "" then r.1 else r.1 ++ [r.2.1]

mutual

/-- Intrinsic sizing `Renderer::measure_node` (renderer.rs): recursive
(width, height) measurement of a node against a width limit. `u32` arithmetic
is embedded on `Nat` (with Rust's saturating subtraction matching `Nat`
subtraction); no claim depends on `u32` addition overflow. -/
def measureNode (fuel : Nat) (st : StateStore) : ViewNode → Nat → Nat × Nat
  | .mk kind props children, widthLimit =>
    let nd := ViewNode.mk kind props children
    match kind with
  | .column | .box | .stack | .scroll =>
    let gap := i64AsU32 (getIntProp fuel st nd "gap" 0)
    let padding := i64AsU32 (getIntProp fuel st nd "padding" 0)
    let sizes := measureVisible fuel st (widthLimit - padding * 2) children
    let count := sizes.length
    let maxW := sizes.foldl (fun m p => max m p.1) 0
    let sumH := sizes.foldl (fun h p => h + p.2) 0
    let totalH := padding * 2 + sumH + (if count > 0 then gap * (count - 1) else 0)
    (maxW + padding * 2, totalH)
  | .row =>
    let gap := i64AsU32 (getIntProp fuel st nd "gap" 0)
    let padding := i64AsU32 (getIntProp fuel st nd "padding" 0)
    let sizes := measureVisible fuel st (widthLimit - padding * 2) children
    let count := sizes.length
    let sumW := sizes.foldl (fun w p => w + p.1) 0
    let maxH := sizes.foldl (fun m p => max m p.2) 0
    let totalW := padding * 2 + sumW + (if count > 0 then gap * (count - 1) else 0)
    (totalW, maxH + padding * 2)
  | .grid =>
    let cols := (max 1 (getIntProp fuel st nd "columns" 2)).toNat
    let gap := i64AsU32 (getIntProp fuel st nd "gap" 0)
    let padding := i64AsU32 (getIntProp fuel st nd "padding" 0)
    let sizes := measureVisible fuel st (widthLimit - padding * 2) children
    if sizes.isEmpty then (0, 0)
    else
      let rows := (sizes.length + cols - 1) / cols
      let maxW := sizes.foldl (fun m p => max m p.1) 0
      let maxH := sizes.foldl (fun m p => max m p.2) 0
      let totalW := maxW * cols + gap * (cols - 1) + padding * 2
      let totalH := maxH * rows + gap * (rows - 1) + padding * 2
      (min totalW widthLimit, totalH)
  | .divider => (widthLimit, 1)
  | .spacer => (0, 0)
  | .text | .markdown =>
    let content := getStringProp fuel st nd "content" ""
    let size := ((getIntProp fuel st nd "size" 16 : Int) : Rat)
    let lines := wrapText content size widthLimit
    let lineHeight := f64AsU32 size + 6
    let lineCount := max lines.length 1
    let maxW := lines.foldl (fun m line => max m (min (textWidth line size) widthLimit)) 0
    (maxW, lineHeight * lineCount)
  | .link =>
    let content := getStringProp fuel st nd "content" "Link"
    let size := ((getIntProp fuel st nd "size" 16 : Int) : Rat)
    let lines := wrapText content size widthLimit
    let lineHeight := f64AsU32 size + 6
    let lineCount := max lines.length 1
    let maxW := lines.foldl (fun m line => max m (min (textWidth line size) widthLimit)) 0
    (maxW, lineHeight * lineCount)
  | .button =>
    let content := getStringProp fuel st nd "content" "Button"
    let baseW := textWidth content 14
    let w0 := min (max (satAddU32 baseW 24) 36) widthLimit
    let w := if content.toList.length ≤ 2 then 36 else w0
    (w, 36)
  | .input => (min widthLimit 280, 36)
  | .textArea =>
    let h := i64AsU32 (getIntProp fuel st nd "height" 100)
    (min widthLimit 400, h)
  | .checkbox | .toggle | .radio =>
    let label := getStringProp fuel st nd "label" ""
    (min (label.utf8ByteSize * 8 + 32) widthLimit, 24)
  | .select | .slider => (min widthLimit 240, 32)
  | .image | .icon | .avatar => (64, 64)
  | .video | .audio => (widthLimit, 120)
  | .table | .listNode | .card => (widthLimit, 120)
  | .badge => (48, 24)
  | .progress => (widthLimit, 16)
  | .modal | .toast | .tooltip | .popover => (widthLimit, 40)
  | .eachNode | .ifNode | .showNode | .switchNode | .slot =>
    let sizes := measureVisible fuel st widthLimit children
    let count := sizes.length
    let maxW := sizes.foldl (fun m p => max m p.1) 0
    let sumH := sizes.foldl (fun h p => h + p.2) 0
    let totalH := sumH + (if count > 1 then (count - 1) * 4 else 0)
    (maxW, totalH)
  | .center => (widthLimit, 0)
  | .component _ => (widthLimit, 0)

/-- Sizes of the visible children, in order (the skip-invisible loop shared
by the container branches of `measure_node`). -/
def measureVisible (fuel : Nat) (st : StateStore) (limit : Nat) :
    List ViewNode → List (Nat × Nat)
  | [] => []
  | c :: rest =>
    if isVisible fuel st c then
      measureNode fuel st c limit :: measureVisible fuel st limit rest
    else measureVisible fuel st limit rest

end

/-- Root height query `Renderer::total_content_height` (renderer.rs). -/
def totalContentHeight (fuel : Nat) (st : StateStore) (view : ViewNode)
    (width : Nat) : Nat :=
  (measureNode fuel st view width).2

/-- Modelled from the spec: `Runtime::content_height` of the browser crate
(the browser's `runtime.rs` is not under src/; only its caller
`src/src/main.rs` is). Per §6 it is the measurement-only query used to
compute scroll bounds, i.e. the measured height of the root view at the given
width, which the renderer exposes as `total_content_height`. -/
def contentHeight (fuel : Nat) (st : StateStore) (view : ViewNode)
    (width : Nat) : Nat :=
  totalContentHeight fuel st view width

/-- Interactive region of `src/src/renderer.rs` (`struct LayoutBox`). -/
structure LayoutBox where
  x : Int
  y : Int
  width : Nat
  height : Nat
  action : Option String
  inputBinding : Option String
  linkHref : Option String

/-- Point-in-rectangle test of `Renderer::hit_test` (renderer.rs): the
half-open box `[x, x+width) × [y, y+height)` with the source's `u32 as i32`
cast and wrapping `i32` addition. -/
def containsPt (x y : Int) (b : LayoutBox) : Bool :=
  decide (b.x ≤ x) && decide (x < addI32 b.x (u32AsI32 b.width)) &&
  decide (b.y ≤ y) && decide (y < addI32 b.y (u32AsI32 b.height))

/-- Hit testing `Renderer::hit_test` (renderer.rs): the first registered
layout box (in registration order) containing the query point. -/
def hitTest (boxes : List LayoutBox) (x y : Int) : Option LayoutBox :=
  boxes.find? (containsPt x y)

/-- Maximum scroll bound of `render_browser` (main.rs):
`(full_height - viewport_height).max(0)`. -/
def maxScrollY (fullHeight viewportHeight : Int) : Int :=
  max (fullHeight - viewportHeight) 0

/-- Scroll clamping of `render_browser` (main.rs): clamp above at the maximum,
then below at 0. -/
def renderScrollClamp (scrollY maxS : Int) : Int :=
  let s1 := if scrollY > maxS then maxS else scrollY
  if s1 < 0 then 0 else s1

/-- Mouse-wheel scroll update of the event loop (main.rs): subtract the wheel
delta, clamp below at 0, then above at the maximum. -/
def wheelScroll (scrollY scrollDelta maxS : Int) : Int :=
  let n := scrollY - scrollDelta
  let n1 := if n < 0 then 0 else n
  if n1 > maxS then maxS else n1

/-- Initial runtime of `Runtime::new` (runtime.rs) for an application with no
declared state fields: fresh store, no focus, root route. -/
def rtInit : Runtime :=
  { state := StateStore.new, focusedInput := none, currentRoute := "/" }

/-- Callee of the C4 shared-locals scenario:
`action inner(x) { x = x + 1 }` — binds its parameter `x` and mutates `x`
(assignments write through to the top-level values map). -/
def innerActionC4 : ActionBlock :=
  { params := ["x"]
    statements := [.assign (.var "x") (.binary (.var "x") .add (.literal (.int 1)))] }

/-- Caller of the C4 shared-locals scenario:
`action outer(x) { call inner(99); result = x }`. -/
def outerActionC4 : ActionBlock :=
  { params := ["x"]
    statements := [.call "inner" [.literal (.int 99)],
                   .assign (.var "result") (.var "x")] }

/-- Action table of the C4 shared-locals scenario. -/
def actsC4 : String → Option ActionBlock :=
  fun n => if n = "inner" then some innerActionC4
           else if n = "outer" then some outerActionC4 else none

/-- Callee of the C4 same-locals-map scenario:
`action reader() { y = x }` — reads a name it never bound itself. -/
def readerActionC4 : ActionBlock :=
  { params := [], statements := [.assign (.var "y") (.var "x")] }

/-- Caller of the C4 same-locals-map scenario:
`action caller(x) { call reader() }`. -/
def callerActionC4 : ActionBlock :=
  { params := ["x"], statements := [.call "reader" []] }

/-- Action table of the C4 same-locals-map scenario. -/
def actsC4b : String → Option ActionBlock :=
  fun n => if n = "reader" then some readerActionC4 else none

/-- TextArea node of a given static `height` property, whose measured height
is exactly that property (`measure_node`, `NodeKind::TextArea` branch). -/
def textAreaOfHeight (h : Int) : ViewNode :=
  .mk .textArea (fun n => if n = "height" then some (.static (.int h)) else none) []

/-- Column of the C6 scenario: three visible children of measured heights
10, 20 and 30, `gap` 5, `padding` 0. -/
def columnC6 : ViewNode :=
  .mk .column
    (fun n => if n = "gap" then some (.static (.int 5))
              else if n = "padding" then some (.static (.int 0)) else none)
    [textAreaOfHeight 10, textAreaOfHeight 20, textAreaOfHeight 30]

/-- Numeric variants (`Int` or `Float`), the operand shapes matched by the
`Div` arms of `apply_binary_op`. -/
def Value.isNumeric : Value → Bool
  | .int _ => true
  | .float _ => true
  | _ => false

/-- Same-kind numeric pairs (`Int`/`Int` or `Float`/`Float`), the operand
shapes matched by the `Mod` arms of `apply_binary_op`. -/
def Value.sameNumKind : Value → Value → Bool
  | .int _, .int _ => true
  | .float _, .float _ => true
  | _, _ => false

mutual

/-- Store preservation of expression evaluation: every case of `evalS` hands
back the store it was given (the source's `evaluate` takes `&self`). -/
theorem evalS_store (fuel : Nat) (s : StateStore) (e : Expression) :
    (StateStore.evalS fuel s e).2 = s := by
  cases e with
  | literal v => simp [StateStore.evalS]
  | var name => simp [StateStore.evalS]
  | propertyAccess o p =>
    have h1 := evalS_store fuel s o
    have h2 := evalS_store fuel (StateStore.evalS fuel s o).2 p
    rw [h1] at h2
    simp [StateStore.evalS, h1, h2]
  | indexAccess o p =>
    have h1 := evalS_store fuel s o
    have h2 := evalS_store fuel (StateStore.evalS fuel s o).2 p
    rw [h1] at h2
    simp [StateStore.evalS, h1, h2]
  | binary l op r =>
    have h1 := evalS_store fuel s l
    have h2 := evalS_store fuel (StateStore.evalS fuel s l).2 r
    rw [h1] at h2
    simp [StateStore.evalS, h1, h2]
  | unary op operand =>
    have h := evalS_store fuel s operand
    simp [StateStore.evalS, h]
  | conditional c t f =>
    have hc := evalS_store fuel s c
    have ht := evalS_store fuel (StateStore.evalS fuel s c).2 t
    have hf := evalS_store fuel (StateStore.evalS fuel s c).2 f
    rw [hc] at ht hf
    simp only [StateStore.evalS]
    split <;> simp [hc, ht, hf]
  | call fn args =>
    have h := evalListS_store fuel s args
    simp [StateStore.evalS, h]
  | methodCall o m args =>
    have h1 := evalS_store fuel s o
    have h2 := evalListS_store fuel (StateStore.evalS fuel s o).2 args
    rw [h1] at h2
    simp [StateStore.evalS, h1, h2]
  | listLiteral items =>
    have h := evalListS_store fuel s items
    simp [StateStore.evalS, h]
  | objectLiteral pairs =>
    have h := evalPairsS_store fuel s pairs
    simp [StateStore.evalS, h]
  | interp parts =>
    have h := evalPartsS_store fuel s parts
    simp [StateStore.evalS, h]
  | lambda params body => simp [StateStore.evalS]
  | range start stop inclusive =>
    have h1 := evalS_store fuel s start
    have h2 := evalS_store fuel (StateStore.evalS fuel s start).2 stop
    rw [h1] at h2
    simp [StateStore.evalS, h1, h2]
  | nullCoalesce v d =>
    have hv := evalS_store fuel s v
    have hd := evalS_store fuel (StateStore.evalS fuel s v).2 d
    rw [hv] at hd
    simp only [StateStore.evalS]
    split <;> simp [hv, hd]
  | spread inner =>
    have h := evalS_store fuel s inner
    simp [StateStore.evalS, h]
  | pipe v t =>
    have h := evalS_store fuel s v
    simp [StateStore.evalS, h]
termination_by (fuel, sizeOf e)

/-- Store preservation of argument-list evaluation. -/
theorem evalListS_store (fuel : Nat) (s : StateStore) (es : List Expression) :
    (StateStore.evalListS fuel s es).2 = s := by
  cases es with
  | nil => simp [StateStore.evalListS]
  | cons e rest =>
    have h1 := evalS_store fuel s e
    have h2 := evalListS_store fuel (StateStore.evalS fuel s e).2 rest
    rw [h1] at h2
    simp [StateStore.evalListS, h1, h2]
termination_by (fuel, sizeOf es)

/-- Store preservation of interpolation-part evaluation. -/
theorem evalPartsS_store (fuel : Nat) (s : StateStore)
    (parts : List InterpolationPart) : (StateStore.evalPartsS fuel s parts).2 = s := by
  cases parts with
  | nil => simp [StateStore.evalPartsS]
  | cons p rest =>
    cases p with
    | lit t =>
      have h := evalPartsS_store fuel s rest
      simp [StateStore.evalPartsS, h]
    | expr e =>
      have h1 := evalS_store fuel s e
      have h2 := evalPartsS_store fuel (StateStore.evalS fuel s e).2 rest
      rw [h1] at h2
      simp [StateStore.evalPartsS, h1, h2]
termination_by (fuel, sizeOf parts)

/-- Store preservation of object-literal entry evaluation. -/
theorem evalPairsS_store (fuel : Nat) (s : StateStore)
    (pairs : List (String × Expression)) :
    (StateStore.evalPairsS fuel s pairs).2 = s := by
  cases pairs with
  | nil => simp [StateStore.evalPairsS]
  | cons kv rest =>
    obtain ⟨k, e⟩ := kv
    have h1 := evalS_store fuel s e
    have h2 := evalPairsS_store fuel (StateStore.evalS fuel s e).2 rest
    rw [h1] at h2
    simp [StateStore.evalPairsS, h1, h2]
termination_by (fuel, sizeOf pairs)

end

/-- Divisor-zero and unmatched-shape fail-soft of the `Div` arm of
`apply_binary_op`: the guards `b != 0` fail on a zero divisor and the
catch-all returns `Int(0)` on non-numeric operands. -/
theorem applyBinaryOp_div_soft (a b : Value)
    (h : b = .int 0 ∨ b = .float 0 ∨ ¬(a.isNumeric ∧ b.isNumeric)) :
    applyBinaryOp a .div b = .int 0 := by
  cases a <;> cases b <;> simp_all [applyBinaryOp, Value.isNumeric]

/-- Divisor-zero and unmatched-shape fail-soft of the `Mod` arm of
`apply_binary_op`. -/
theorem applyBinaryOp_mod_soft (a b : Value)
    (h : b = .int 0 ∨ b = .float 0 ∨ ¬(Value.sameNumKind a b)) :
    applyBinaryOp a .mod b = .int 0 := by
  cases a <;> cases b <;> simp_all [applyBinaryOp, Value.sameNumKind]

/-- Evaluation of a binary node is the operator applied to the operand values
(the threaded store collapses by store preservation). -/
theorem evaluate_binary (fuel : Nat) (s : StateStore) (l : Expression)
    (op : BinaryOp) (r : Expression) :
    StateStore.evaluate fuel s (.binary l op r)
      = applyBinaryOp (StateStore.evaluate fuel s l) op (StateStore.evaluate fuel s r) := by
  simp [StateStore.evaluate, StateStore.evalS, evalS_store]

/-- C1: for every pair of operand values, evaluating a binary `Div` or `Mod`
expression whose divisor evaluates to zero (`Int(0)` or `Float(0.0)`), or
whose operand types match no numeric case of the operator, returns `Int(0)`;
evaluation is total, so it never fails or raises. -/
theorem div_mod_zero_fail_soft (fuel : Nat) (s : StateStore) (l r : Expression) :
    ((StateStore.evaluate fuel s r = .int 0 ∨ StateStore.evaluate fuel s r = .float 0 ∨
      ¬((StateStore.evaluate fuel s l).isNumeric ∧ (StateStore.evaluate fuel s r).isNumeric)) →
      StateStore.evaluate fuel s (.binary l .div r) = .int 0) ∧
    ((StateStore.evaluate fuel s r = .int 0 ∨ StateStore.evaluate fuel s r = .float 0 ∨
      ¬(Value.sameNumKind (StateStore.evaluate fuel s l) (StateStore.evaluate fuel s r))) →
      StateStore.evaluate fuel s (.binary l .mod r) = .int 0) := by
  constructor
  · intro h
    rw [evaluate_binary]
    exact applyBinaryOp_div_soft _ _ h
  · intro h
    rw [evaluate_binary]
    exact applyBinaryOp_mod_soft _ _ h

/-- Witness for C1: dividing 7 by a zero literal yields `Int(0)`, for both
`Div` and `Mod`. -/
theorem div_mod_zero_fail_soft_witness :
    StateStore.evaluate 1 StateStore.new
      (.binary (.literal (.int 7)) .div (.literal (.int 0))) = .int 0 ∧
    StateStore.evaluate 1 StateStore.new
      (.binary (.literal (.int 7)) .mod (.literal (.int 0))) = .int 0 := by
  have hz : StateStore.evaluate 1 StateStore.new (.literal (.int 0)) = .int 0 := by
    simp [StateStore.evaluate, StateStore.evalS]
  exact ⟨(div_mod_zero_fail_soft 1 StateStore.new (.literal (.int 7)) (.literal (.int 0))).1
      (Or.inl hz),
    (div_mod_zero_fail_soft 1 StateStore.new (.literal (.int 7)) (.literal (.int 0))).2
      (Or.inl hz)⟩

/-- First-satisfying-element characterization of `List.find?`. -/
theorem find?_of_first {α : Type} (p : α → Bool) :
    ∀ (l : List α) (i : Nat) (a : α), l[i]? = some a → p a = true →
      (∀ j b, j < i → l[j]? = some b → p b = false) → l.find? p = some a := by
  intro l
  induction l with
  | nil => intro i a h; simp at h
  | cons x xs ih =>
    intro i a hget hp hbefore
    cases i with
    | zero =>
      simp at hget
      subst hget
      simp [List.find?, hp]
    | succ i =>
      have hx : p x = false := hbefore 0 x (Nat.succ_pos i) (by simp)
      simp at hget
      simp [List.find?, hx]
      exact ih i a hget hp (fun j b hj hb => hbefore (j + 1) b (by omega) (by simpa using hb))

/-- C2: hit testing returns the first region in registration (insertion/paint)
order whose rectangle contains the query point; in particular, for two
overlapping regions registered in order `a` then `b` with the point in both,
the result is `a`. -/
theorem hit_test_first_registered :
    (∀ (bs : List LayoutBox) (x y : Int) (i : Nat) (b : LayoutBox),
      bs[i]? = some b → containsPt x y b = true →
      (∀ j b2, j < i → bs[j]? = some b2 → containsPt x y b2 = false) →
      hitTest bs x y = some b) ∧
    (∀ (a b : LayoutBox) (x y : Int), containsPt x y a = true →
      containsPt x y b = true → hitTest [a, b] x y = some a) := by
  constructor
  · intro bs x y i b hget hc hbefore
    exact find?_of_first (containsPt x y) bs i b hget hc hbefore
  · intro a b x y ha _
    simp [hitTest, List.find?, ha]

/-- Witness for C2: two identical overlapping boxes registered `A` then `B`;
the query point (5,5) lies in both and hit testing returns `A`. -/
theorem hit_test_first_registered_witness :
    containsPt 5 5 ⟨0, 0, 10, 10, some "A", none, none⟩ = true ∧
    containsPt 5 5 ⟨0, 0, 10, 10, some "B", none, none⟩ = true ∧
    hitTest [⟨0, 0, 10, 10, some "A", none, none⟩,
             ⟨0, 0, 10, 10, some "B", none, none⟩] 5 5
      = some ⟨0, 0, 10, 10, some "A", none, none⟩ :=
  ⟨by decide, by decide,
    hit_test_first_registered.2 ⟨0, 0, 10, 10, some "A", none, none⟩
      ⟨0, 0, 10, 10, some "B", none, none⟩ 5 5 (by decide) (by decide)⟩

/-- C3: the dirty-flag protocol of the state store — the store starts dirty;
`set` with a value structurally equal (under `PartialEq`) to the current one
leaves the flag unchanged while a differing value raises it; `mark_clean`
clears it and `invalidate` raises it again. -/
theorem dirty_flag_protocol :
    (StateStore.new.dirty = true) ∧
    (∀ (s : StateStore) (k : String) (v w : Value),
      s.values k = some w → Value.beq w v = true → (s.set k v).dirty = s.dirty) ∧
    (∀ (s : StateStore) (k : String) (v w : Value),
      s.values k = some w → Value.beq w v = false → (s.set k v).dirty = true) ∧
    (∀ s : StateStore, s.markClean.dirty = false) ∧
    (∀ s : StateStore, s.invalidate.dirty = true) := by
  refine ⟨rfl, ?_, ?_, fun s => rfl, fun s => rfl⟩
  · intro s k v w hk hbeq
    simp [StateStore.set, hk, hbeq]
  · intro s k v w hk hbeq
    simp [StateStore.set, hk, hbeq]

/-- Witness for C3: on a store holding `k ↦ Int 1`, re-setting `Int 1` after
`mark_clean` leaves the flag clear, setting `Int 2` raises it, and
`invalidate` after `mark_clean` raises it. -/
theorem dirty_flag_protocol_witness :
    (((StateStore.new.set "k" (.int 1)).markClean.set "k" (.int 1)).dirty = false) ∧
    (((StateStore.new.set "k" (.int 1)).markClean.set "k" (.int 2)).dirty = true) ∧
    ((StateStore.new.set "k" (.int 1)).markClean.invalidate.dirty = true) := by
  refine ⟨?_, ?_, dirty_flag_protocol.2.2.2.2 _⟩
  · have h := dirty_flag_protocol.2.1 ((StateStore.new.set "k" (.int 1)).markClean)
      "k" (.int 1) (.int 1) (by simp [StateStore.set, StateStore.markClean, StateStore.new, mapInsert])
      (by simp [Value.beq])
    rw [h]
    exact (dirty_flag_protocol.2.2.2.1 _)
  · exact dirty_flag_protocol.2.2.1 ((StateStore.new.set "k" (.int 1)).markClean)
      "k" (.int 2) (.int 1) (by simp [StateStore.set, StateStore.markClean, StateStore.new, mapInsert])
      (by simp [Value.beq])

/-- Binding a parameter list leaves the locals entry of any name not among
the parameters untouched. -/
theorem bindLoop_locals_not_mem :
    ∀ (params : List String) (st : StateStore) (args : List Value) (i : Nat)
      (key : String), key ∉ params →
      (bindLoop st params args i).locals key = st.locals key := by
  intro params
  induction params with
  | nil => intro st args i key _; simp [bindLoop]
  | cons p rest ih =>
    intro st args i key h
    simp only [List.mem_cons, not_or] at h
    rw [bindLoop, ih _ _ _ _ h.2]
    simp [StateStore.setLocal, mapInsert, h.1]

/-- Positional parameter binding: with distinct parameter names, the `j`-th
parameter ends bound to the `(i+j)`-th argument, defaulting to `Null` when
that argument is missing. -/
theorem bindLoop_locals_get :
    ∀ (params : List String) (st : StateStore) (args : List Value) (i j : Nat)
      (hj : j < params.length), params.Nodup →
      (bindLoop st params args i).locals (params.get ⟨j, hj⟩)
        = some (args.getD (i + j) .null) := by
  intro params
  induction params with
  | nil => intro st args i j hj _; simp at hj
  | cons p rest ih =>
    intro st args i j hj hnd
    simp only [List.nodup_cons] at hnd
    cases j with
    | zero =>
      rw [bindLoop]
      rw [bindLoop_locals_not_mem rest _ args (i + 1) _ (by simpa using hnd.1)]
      simp [StateStore.setLocal, mapInsert]
    | succ j =>
      rw [bindLoop]
      have h := ih (st.setLocal p (args.getD i .null)) args (i + 1) j
        (by simpa using Nat.lt_of_succ_lt_succ hj) hnd.2
      have harith : i + 1 + j = i + (j + 1) := by omega
      rw [harith] at h
      exact h

set_option maxRecDepth 8000 in
/-- C4: action invocation binds parameters positionally into the single shared
locals map (missing arguments default to `Null`) and clears all locals when
the action completes; a nested `Call` executes the callee in the caller's
locals map, so an action with parameter `x` calling an action that also binds
`x` (and mutates it, which writes through to the top-level values) observes
the callee's mutation of `x` after the call returns (100), not its own
pre-call binding (5); a callee can likewise read the caller's local. -/
theorem action_shared_locals :
    (∀ (fuel : Nat) (acts : String → Option ActionBlock) (rt : Runtime)
      (a : ActionBlock) (args : List Value),
      (execAction (fuel + 1) acts rt a args).state.locals = fun _ => none) ∧
    (∀ (st : StateStore) (params : List String) (args : List Value) (j : Nat)
      (hj : j < params.length), params.Nodup →
      (bindLoop st params args 0).locals (params.get ⟨j, hj⟩)
        = some (args.getD j .null)) ∧
    ((execAction 20 actsC4 rtInit outerActionC4 [.int 5]).state.values "result"
      = some (.int 100)) ∧
    ((execAction 20 actsC4b rtInit callerActionC4 [.int 5]).state.values "y"
      = some (.int 5)) := by
  refine ⟨?_, ?_, ?_, ?_⟩
  · intro fuel acts rt a args
    simp [execAction, StateStore.clearLocals]
  · intro st params args j hj hnd
    simpa using bindLoop_locals_get params st args 0 j hj hnd
  · simp [execAction, execStmts, execStmt, bindLoop, StateStore.evaluate, StateStore.evalS,
      StateStore.get, applyBinaryOp, StateStore.set, StateStore.setLocal, StateStore.clearLocals,
      mapInsert, actsC4, innerActionC4, outerActionC4, rtInit, StateStore.new, Value.beq]
  · simp [execAction, execStmts, execStmt, bindLoop, StateStore.evaluate, StateStore.evalS,
      StateStore.get, applyBinaryOp, StateStore.set, StateStore.setLocal, StateStore.clearLocals,
      mapInsert, actsC4b, readerActionC4, callerActionC4, rtInit, StateStore.new, Value.beq]

/-- Witness for C4: binding `["x", "y"]` to the single argument `5` leaves
`x ↦ 5` and defaults the missing `y` to `Null`; locals are empty after a
concrete action completes. -/
theorem action_shared_locals_witness :
    ((bindLoop StateStore.new ["x", "y"] [.int 5] 0).locals "x" = some (.int 5)) ∧
    ((bindLoop StateStore.new ["x", "y"] [.int 5] 0).locals "y" = some .null) ∧
    ((execAction 1 actsC4 rtInit outerActionC4 [.int 5]).state.locals = fun _ => none) := by
  refine ⟨?_, ?_, action_shared_locals.1 0 actsC4 rtInit outerActionC4 [.int 5]⟩
  · have h := action_shared_locals.2.1 StateStore.new ["x", "y"] [.int 5] 0
      (by decide) (by decide)
    simpa using h
  · have h := action_shared_locals.2.1 StateStore.new ["x", "y"] [.int 5] 1
      (by decide) (by decide)
    simpa using h

/-- C5: the maximum scroll offset is `max(0, fullContentHeight − viewport)`
with `fullContentHeight` the measured height of the root view; with content
height 500 and viewport 200 the maximum is 300, a requested scroll of −50
clamps to 0 and 1000 clamps to 300; both clamp sites (wheel event and render)
keep the scroll position inside `[0, max]`. -/
theorem scroll_max_and_clamp :
    (∀ fh vh : Int, maxScrollY fh vh = max 0 (fh - vh)) ∧
    (∀ (fuel : Nat) (st : StateStore) (view : ViewNode) (w : Nat) (vh : Int),
      maxScrollY ((contentHeight fuel st view w : Nat) : Int) vh
        = max 0 (((contentHeight fuel st view w : Nat) : Int) - vh)) ∧
    (maxScrollY 500 200 = 300) ∧
    (wheelScroll 0 50 300 = 0) ∧
    (wheelScroll 0 (-1000) 300 = 300) ∧
    (renderScrollClamp (-50) 300 = 0) ∧
    (renderScrollClamp 1000 300 = 300) ∧
    (∀ s d m : Int, 0 ≤ m → 0 ≤ wheelScroll s d m ∧ wheelScroll s d m ≤ m) ∧
    (∀ s m : Int, 0 ≤ m → 0 ≤ renderScrollClamp s m ∧ renderScrollClamp s m ≤ m) := by
  refine ⟨fun fh vh => ?_, fun fuel st view w vh => ?_, by decide, by decide, by decide,
    by decide, by decide, ?_, ?_⟩
  · rw [maxScrollY, max_comm]
  · rw [maxScrollY, max_comm]
  · intro s d m hm
    unfold wheelScroll
    constructor <;> (dsimp only; split <;> split <;> omega)
  · intro s m hm
    unfold renderScrollClamp
    constructor <;> (dsimp only; split <;> split <;> omega)

/-- Witness for C5: the wheel-clamp bounds at a concrete state — scroll 0,
delta 50, maximum 300. -/
theorem scroll_max_and_clamp_witness :
    (0 : Int) ≤ wheelScroll 0 50 300 ∧ wheelScroll 0 50 300 ≤ 300 ∧
    (0 : Int) ≤ renderScrollClamp (-50) 300 ∧ renderScrollClamp (-50) 300 ≤ 300 :=
  ⟨(scroll_max_and_clamp.2.2.2.2.2.2.2.1 0 50 300 (by decide)).1,
   (scroll_max_and_clamp.2.2.2.2.2.2.2.1 0 50 300 (by decide)).2,
   (scroll_max_and_clamp.2.2.2.2.2.2.2.2 (-50) 300 (by decide)).1,
   (scroll_max_and_clamp.2.2.2.2.2.2.2.2 (-50) 300 (by decide)).2⟩

/-- Counterexample for C6: a Column with three visible children of measured
heights 10, 20 and 30, gap 5 and padding 0 measures to height 70
(= 10+20+30 + 5·2), not 75 as the claim states. -/
theorem column_height_not_75 :
    isVisible 1 StateStore.new (textAreaOfHeight 10) = true ∧
    isVisible 1 StateStore.new (textAreaOfHeight 20) = true ∧
    isVisible 1 StateStore.new (textAreaOfHeight 30) = true ∧
    (measureNode 1 StateStore.new (textAreaOfHeight 10) 100).2 = 10 ∧
    (measureNode 1 StateStore.new (textAreaOfHeight 20) 100).2 = 20 ∧
    (measureNode 1 StateStore.new (textAreaOfHeight 30) 100).2 = 30 ∧
    getIntProp 1 StateStore.new columnC6 "gap" 0 = 5 ∧
    getIntProp 1 StateStore.new columnC6 "padding" 0 = 0 ∧
    (measureNode 1 StateStore.new columnC6 100).2 = 70 ∧
    ¬(measureNode 1 StateStore.new columnC6 100).2 = 75 := by
  refine ⟨rfl, rfl, rfl, rfl, rfl, rfl, rfl, rfl, rfl, by decide⟩

/-- C6 (amended): measuring a Column with exactly three visible children of
measured heights 10, 20 and 30, gap 5 and padding 0 yields container height
70 — the children stack vertically with the gap accumulated between
consecutive children (gap × (n−1)), not once per child. -/
theorem column_three_children_height (fuel : Nat) (st : StateStore)
    (props : String → Option PropValue) (c1 c2 c3 : ViewNode) (wl : Nat)
    (hgap : getIntProp fuel st (ViewNode.mk .column props [c1, c2, c3]) "gap" 0 = 5)
    (hpad : getIntProp fuel st (ViewNode.mk .column props [c1, c2, c3]) "padding" 0 = 0)
    (hv1 : isVisible fuel st c1 = true) (hv2 : isVisible fuel st c2 = true)
    (hv3 : isVisible fuel st c3 = true)
    (hm1 : (measureNode fuel st c1 wl).2 = 10)
    (hm2 : (measureNode fuel st c2 wl).2 = 20)
    (hm3 : (measureNode fuel st c3 wl).2 = 30) :
    (measureNode fuel st (ViewNode.mk .column props [c1, c2, c3]) wl).2 = 70 := by
  norm_num [measureNode, measureVisible, hgap, hpad, hv1, hv2, hv3, hm1, hm2, hm3, i64AsU32]
  decide

/-- Witness for C6 (amended): the concrete Column of the scenario measures to
height 70. -/
theorem column_three_children_height_witness :
    (measureNode 1 StateStore.new columnC6 100).2 = 70 :=
  column_three_children_height 1 StateStore.new
    (fun n => if n = "gap" then some (.static (.int 5))
              else if n = "padding" then some (.static (.int 0)) else none)
    (textAreaOfHeight 10) (textAreaOfHeight 20) (textAreaOfHeight 30) 100
    rfl rfl rfl rfl rfl rfl rfl rfl

/-- C7: truthiness is false exactly for `Null`, `false`, `Int(0)`,
`Float(0.0)`, the empty string, the empty list and the empty object, and true
for every other value. -/
theorem truthiness_false_iff (v : Value) :
    v.asBool = false ↔
      (v = .null ∨ v = .bool false ∨ v = .int 0 ∨ v = .float 0 ∨
       v = .str "" ∨ v = .list [] ∨ v = .obj []) := by
  cases v <;> simp [Value.asBool, String.isEmpty_iff, List.isEmpty_iff]

/-- C8: expression evaluation is pure and side-effect-free — it leaves every
field of the state store (values, computed, locals, dirty flag) unchanged, and
two evaluations of the same expression against the same store state return
structurally equal (indeed identical) values. -/
theorem evaluate_pure :
    (∀ (fuel : Nat) (s : StateStore) (e : Expression),
      (StateStore.evalS fuel s e).2.values = s.values ∧
      (StateStore.evalS fuel s e).2.computed = s.computed ∧
      (StateStore.evalS fuel s e).2.locals = s.locals ∧
      (StateStore.evalS fuel s e).2.dirty = s.dirty) ∧
    (∀ (fuel : Nat) (s t : StateStore) (e : Expression), s = t →
      StateStore.evaluate fuel s e = StateStore.evaluate fuel t e) := by
  constructor
  · intro fuel s e
    rw [evalS_store]
    exact ⟨rfl, rfl, rfl, rfl⟩
  · intro fuel s t e h
    rw [h]

/-- Witness for C8: on a fresh store, evaluating a variable read leaves the
values map untouched, and re-evaluation agrees. -/
theorem evaluate_pure_witness :
    (StateStore.evalS 1 StateStore.new (.var "k")).2.values = StateStore.new.values ∧
    StateStore.evaluate 1 StateStore.new (.var "k")
      = StateStore.evaluate 1 StateStore.new (.var "k") :=
  ⟨(evaluate_pure.1 1 StateStore.new (.var "k")).1,
   evaluate_pure.2 1 StateStore.new StateStore.new (.var "k") rfl⟩

/-- C9: structural value equality never holds across variants — in particular
`Int(i) == Float(f)` is false even when `i` coerced to float equals `f` —
while the ordering comparisons coerce both sides to float and treat such a
pair as equal (`<=`, `>=` true; `<`, `>` false); the same equality drives
`==`/`!=` and the dirty-flag comparison of `set`, so overwriting `Int(i)`
with any `Float` raises the flag. -/
theorem structural_eq_no_cross_variant :
    (∀ v w : Value, v.typeName ≠ w.typeName → Value.beq v w = false) ∧
    (∀ (i : Int) (f : Rat), Value.beq (.int i) (.float f) = false ∧
      applyBinaryOp (.int i) .eq (.float f) = .bool false ∧
      applyBinaryOp (.int i) .ne (.float f) = .bool true) ∧
    (∀ (i : Int) (f : Rat), (Value.int i).asFloat = (Value.float f).asFloat →
      applyBinaryOp (.int i) .le (.float f) = .bool true ∧
      applyBinaryOp (.int i) .ge (.float f) = .bool true ∧
      applyBinaryOp (.int i) .lt (.float f) = .bool false ∧
      applyBinaryOp (.int i) .gt (.float f) = .bool false) ∧
    (∀ (s : StateStore) (k : String) (i : Int) (f : Rat),
      s.values k = some (.int i) → (s.set k (.float f)).dirty = true) := by
  refine ⟨?_, ?_, ?_, ?_⟩
  · intro v w h
    cases v <;> cases w <;> simp_all [Value.beq, Value.typeName]
  · intro i f
    exact ⟨by simp [Value.beq], by simp [applyBinaryOp, Value.beq],
      by simp [applyBinaryOp, Value.beq]⟩
  · intro i f h
    simp only [Value.asFloat] at h
    simp [applyBinaryOp, Value.asFloat, h]
  · intro s k i f hk
    simp [StateStore.set, hk, Value.beq]

/-- Witness for C9: `Int 1` and `Float 1.0` compare unequal under `==` while
the order comparisons treat them as equal, and the dirty flag rises when a
store's `Int 1` entry is overwritten with `Float 1.0`. -/
theorem structural_eq_no_cross_variant_witness :
    Value.beq (.int 1) (.float 1) = false ∧
    applyBinaryOp (.int 1) .le (.float 1) = .bool true ∧
    applyBinaryOp (.int 1) .lt (.float 1) = .bool false ∧
    ((StateStore.new.set "k" (.int 1)).set "k" (.float 1)).dirty = true := by
  refine ⟨(structural_eq_no_cross_variant.2.1 1 1).1,
    (structural_eq_no_cross_variant.2.2.1 1 1 ?_).1,
    (structural_eq_no_cross_variant.2.2.1 1 1 ?_).2.2.1,
    structural_eq_no_cross_variant.2.2.2 (StateStore.new.set "k" (.int 1)) "k" 1 1 ?_⟩
  · simp [Value.asFloat]
  · simp [Value.asFloat]
  · simp [StateStore.set, StateStore.new, mapInsert]

/-- When a key does not hold a top-level list, the fused
`get_list_mut`-and-mutate operation leaves the store untouched. -/
theorem listMutate_not_list (s : StateStore) (key : String)
    (f : List Value → List Value) (h : ∀ l, s.values key ≠ some (.list l)) :
    s.listMutate key f = s := by
  unfold StateStore.listMutate
  split
  · rename_i l heq
    exact absurd heq (h l)
  · rfl

/-- C10: every list-mutation statement (`ListPush`, `ListPop`, `ListInsert`,
`ListRemove`, `ListClear`) whose target name does not currently hold a
top-level `List` in the store's values map is a complete no-op: the runtime —
values, locals and computed maps, dirty flag, focus and route — is returned
unchanged with a `Continue` signal. -/
theorem list_mutation_noop_nonlist (fuel : Nat) (acts : String → Option ActionBlock)
    (rt : Runtime) (t : String) (e idx : Expression)
    (h : ∀ l, rt.state.values t ≠ some (.list l)) :
    execStmt (fuel + 1) acts rt (.listPush t e) = (.cont, rt) ∧
    execStmt (fuel + 1) acts rt (.listPop t) = (.cont, rt) ∧
    execStmt (fuel + 1) acts rt (.listInsert t idx e) = (.cont, rt) ∧
    execStmt (fuel + 1) acts rt (.listRemove t idx) = (.cont, rt) ∧
    execStmt (fuel + 1) acts rt (.listClear t) = (.cont, rt) := by
  refine ⟨?_, ?_, ?_, ?_, ?_⟩ <;>
    simp [execStmt, listMutate_not_list _ _ _ h]

/-- Witness for C10: on a store where `"n"` holds `Int 3` (not a list),
`ListPush` and `ListClear` leave the runtime unchanged. -/
theorem list_mutation_noop_nonlist_witness :
    execStmt 1 (fun _ => none) { rtInit with state := StateStore.new.set "n" (.int 3) }
      (.listPush "n" (.literal (.int 1)))
      = (.cont, { rtInit with state := StateStore.new.set "n" (.int 3) }) ∧
    execStmt 1 (fun _ => none) { rtInit with state := StateStore.new.set "n" (.int 3) }
      (.listClear "n")
      = (.cont, { rtInit with state := StateStore.new.set "n" (.int 3) }) := by
  have h : ∀ l, ({ rtInit with state := StateStore.new.set "n" (.int 3) } : Runtime).state.values "n"
      ≠ some (.list l) := by
    intro l
    simp [rtInit, StateStore.set, StateStore.new, mapInsert]
  exact ⟨(list_mutation_noop_nonlist 0 (fun _ => none) _ "n" (.literal (.int 1))
      (.literal (.int 0)) h).1,
    (list_mutation_noop_nonlist 0 (fun _ => none) _ "n" (.literal (.int 1))
      (.literal (.int 0)) h).2.2.2.2⟩
